import Mathlib

/-!
Verification of the WakatimeBlender activity-tracking and heartbeat-delivery
subsystem.  Python strings are embedded as `List Char` (or Lean `String` where
only equality is needed), `datetime.date` values as `ℤ` (a day index; two dates
are equal iff their ISO strings are equal), wall-clock / epoch times as `ℚ`,
and Python `int` as `ℤ`.  File-system persistence is embedded as explicit
state: the daily-state JSON file is an `Option (ℤ × ℤ)` record, and the calls
made to `save_tracked_seconds` are recorded in an append-only trace.
-/

namespace WakatimeBlender

/-! ### Python string primitives

Helpers mirroring the Python `str` operations the sources use:
`str.strip()`, `str.rstrip('/')` / the trailing-slash loop, `str.endswith`,
slicing off a suffix, `os.path.basename` (POSIX) and `os.path.splitext`. -/

/-- The ASCII whitespace characters `str.strip()` removes. -/
def pySpace (c : Char) : Bool :=
  c == ' ' || c == '\t' || c == '\n' || c == '\r' || c == '\x0b' || c == '\x0c'

/-- Remove trailing characters satisfying `p` (Python `rstrip`). -/
def rstripP (p : Char → Bool) (l : List Char) : List Char :=
  (l.reverse.dropWhile p).reverse

/-- Python `str.strip()`: remove leading and trailing whitespace. -/
def pyStrip (l : List Char) : List Char :=
  rstripP pySpace (l.dropWhile pySpace)

/-- Python `str.endswith(s)`. -/
def endsWithL (l s : List Char) : Bool :=
  decide (l.drop (l.length - s.length) = s)

/-- Python `s[:-len(t)]`: the string with the suffix `t` sliced off. -/
def dropSuffixL (l s : List Char) : List Char :=
  l.take (l.length - s.length)

/-- `os.path.basename` for POSIX paths: everything after the last `/`. -/
def pyBasename (l : List Char) : List Char :=
  (l.reverse.takeWhile (fun c => c != '/')).reverse

/-- `os.path.splitext(b)[0]` for a path without separators: split at the last
dot, except that leading dots never start an extension. -/
def pySplitextRoot (l : List Char) : List Char :=
  let tailNoDot := l.reverse.takeWhile (fun c => c != '.')
  if tailNoDot.length = l.length then l
  else
    let i := l.length - tailNoDot.length - 1
    if (l.take i).any (fun c => c != '.') then l.take i else l

/-! ### `settings.py`: heartbeats endpoint URL derivation (lines 99-138) -/

/-- `settings.DEFAULT_API_SERVER_URL`. -/
def DEFAULT_API_SERVER_URL : List Char := "https://api.wakatime.com/".toList

/-- The suffix `"/users/current/heartbeats.bulk"`. -/
def sfxUCB : List Char := "/users/current/heartbeats.bulk".toList

/-- The suffix `"/heartbeats.bulk"`. -/
def sfxHB : List Char := "/heartbeats.bulk".toList

/-- The suffix `"/heartbeats"`. -/
def sfxH : List Char := "/heartbeats".toList

/-- The suffix `"/users/current"`. -/
def sfxUC : List Char := "/users/current".toList

/-- The suffix `"/api/v1"`. -/
def apiV1 : List Char := "/api/v1".toList

/-- The full derived-endpoint suffix `"/api/v1/users/current/heartbeats.bulk"`. -/
def fullSfx : List Char := "/api/v1/users/current/heartbeats.bulk".toList

/-- The `for suffix in suffixes` loop of `_strip_heartbeats_suffix`
(settings.py lines 105-114): remove the first matching suffix of
`/users/current/heartbeats.bulk`, `/heartbeats.bulk`, `/heartbeats`
(the loop breaks after the first match). -/
def removeFirstSuffix (cleaned : List Char) : List Char :=
  if endsWithL cleaned sfxUCB then dropSuffixL cleaned sfxUCB
  else if endsWithL cleaned sfxHB then dropSuffixL cleaned sfxHB
  else if endsWithL cleaned sfxH then dropSuffixL cleaned sfxH
  else cleaned

/-- `settings._strip_heartbeats_suffix` (settings.py lines 99-114): empty in,
empty out; otherwise strip whitespace, drop trailing slashes (the `while
cleaned.endswith` loop), then remove the first matching heartbeats suffix. -/
def strip_heartbeats_suffix (url : List Char) : List Char :=
  if url = [] then []
  else removeFirstSuffix (rstripP (fun c => c == '/') (pyStrip url))

/-- The suffix case split of `_normalize_api_v1_base` (settings.py lines
120-124). -/
def normalizeBase (base : List Char) : List Char :=
  if endsWithL base apiV1 || endsWithL base "/v1".toList then base
  else if endsWithL base "/api".toList then base ++ "/v1".toList
  else base ++ apiV1

/-- `settings._normalize_api_v1_base` (settings.py lines 117-124): strip the
heartbeats suffix of the raw URL (or of the default when the raw URL is
empty), drop trailing slashes, and normalize to an `/api/v1` base. -/
def normalize_api_v1_base (raw_url : List Char) : List Char :=
  normalizeBase (rstripP (fun c => c == '/')
    (strip_heartbeats_suffix
      (if raw_url = [] then DEFAULT_API_SERVER_URL else raw_url)))

/-- The suffix case split of `api_heartbeats_url_for_value` (settings.py
lines 134-138). -/
def appendHeartbeats (base : List Char) : List Char :=
  if endsWithL base sfxUCB then base
  else if endsWithL base sfxUC then base ++ sfxHB
  else base ++ sfxUCB

/-- `settings.api_heartbeats_url_for_value` (settings.py lines 132-138):
normalize to the `/api/v1` base then append `/users/current/heartbeats.bulk`
unless an equivalent suffix is already present. -/
def api_heartbeats_url_for_value (raw_url : List Char) : List Char :=
  appendHeartbeats (rstripP (fun c => c == '/') (normalize_api_v1_base raw_url))

/-! ### `state_store.py` (lines 19-48)

The persisted JSON record `{"date": ..., "seconds": ...}` is embedded as an
`Option (ℤ × ℤ)`: `none` is a missing or unreadable file.  `load` returns
`(0, false)` on a missing record or a date mismatch, else the clamped stored
seconds with `true`; `save` overwrites the record with the clamped value. -/

/-- `state_store.load_tracked_seconds` (state_store.py lines 19-38). -/
def load_tracked_seconds (day : ℤ) (store : Option (ℤ × ℤ)) : ℤ × Bool :=
  match store with
  | none => (0, false)
  | some (d, s) => if d ≠ day then (0, false) else (max 0 s, true)

/-- `state_store.save_tracked_seconds` (state_store.py lines 41-48): the store
after the write.  The date is recorded and the seconds clamped at zero. -/
def save_tracked_seconds (day : ℤ) (seconds : ℤ) : Option (ℤ × ℤ) :=
  some (day, max 0 seconds)

/-! ### `heartbeat_queue.py`: project naming, queue state and `enqueue` -/

/-- `heartbeat_queue.simple_project_name` (heartbeat_queue.py lines 20-28):
basename without extension, stripped, defaulting to `Blender`, with a
` [blender]` suffix appended unless already present (case-insensitively). -/
def simple_project_name (filename : String) : String :=
  let base := pyStrip (pySplitextRoot (pyBasename filename.toList))
  let base := if base = [] then "Blender".toList else base
  if !endsWithL (base.map Char.toLower) "[blender]".toList then
    ⟨base ++ " [blender]".toList⟩
  else ⟨base⟩

/-- `heartbeat_queue.HeartBeat` (heartbeat_queue.py lines 31-36). -/
structure HeartBeat where
  entity : String
  project : String
  timestamp : ℚ
  is_write : Bool
deriving DecidableEq, Repr

/-- The mutable state of `HeartbeatQueue` that `enqueue` touches
(heartbeat_queue.py lines 42-59): the accumulated seconds, the wall-clock
moment of the last accounted activity, the current day, the last queued
heartbeat, the FIFO of pending heartbeats, and the trace of
`save_tracked_seconds (day, seconds)` calls made so far. -/
structure QState where
  total : ℤ
  lastTracked : Option ℚ
  day : ℤ
  lastHB : Option HeartBeat
  queue : List HeartBeat
  saves : List (ℤ × ℤ)
deriving DecidableEq, Repr

/-- The daily reset block of `enqueue` (heartbeat_queue.py lines 93-99):
when today differs from the stored day, zero the total, adopt today and
persist the zero. -/
def dailyReset (st : QState) (today : ℤ) : QState :=
  if today ≠ st.day then
    { st with total := 0, day := today, saves := st.saves ++ [(today, 0)] }
  else st

/-- The live-time accounting block of `enqueue` (heartbeat_queue.py lines
101-107): when a previous activity moment exists and the gap is in `(0, 600)`
seconds, add its truncation (`int(delta)`, a floor for positive deltas) to the
total and persist. -/
def liveUpdate (st : QState) (now : ℚ) : QState :=
  match st.lastTracked with
  | some t =>
    if 0 < now - t ∧ now - t < 600 then
      { st with total := st.total + ⌊now - t⌋,
                saves := st.saves ++ [(st.day, st.total + ⌊now - t⌋)] }
    else st
  | none => st

/-- `HeartbeatQueue._enough_time_passed` (heartbeat_queue.py lines 78-83):
true when no heartbeat was queued yet, or strictly more than the threshold
(2 s for writes, 30 s otherwise) elapsed since the last queued heartbeat. -/
def enough_time_passed (st : QState) (now : ℚ) (is_write : Bool) : Bool :=
  match st.lastHB with
  | none => true
  | some hb => decide (now - hb.timestamp > (if is_write then (2 : ℚ) else 30))

/-- `HeartbeatQueue.enqueue` (heartbeat_queue.py lines 85-123).  `timestamp`
is `time.time()` (the epoch clock used for heartbeats and throttling), `now`
is `datetime.datetime.now()` (the wall clock used for live accounting) and
`today` is `datetime.date.today()`. -/
def enqueue (st : QState) (timestamp now : ℚ) (today : ℤ)
    (filename : String) (is_write : Bool) : QState :=
  let last_file := match st.lastHB with
    | some hb => hb.entity
    | none => ""
  let st1 := dailyReset st today
  let st2 := liveUpdate st1 now
  let st3 := { st2 with lastTracked := some now }
  if filename = "" then st3
  else if filename = last_file ∧ ¬ enough_time_passed st timestamp is_write then st3
  else
    let hb : HeartBeat := ⟨filename, simple_project_name filename, timestamp, is_write⟩
    { st3 with lastHB := some hb,
               queue := st3.queue ++ [hb],
               saves := st3.saves ++ [(st3.day, st3.total)] }

/-- `HeartbeatQueue.get_tracked_time_live` (heartbeat_queue.py lines 64-76):
the accumulated total plus, when the last accounted activity is under 120 s
old, the elapsed seconds since it. -/
def get_tracked_time_live (st : QState) (now : ℚ) : ℤ :=
  st.total +
    match st.lastTracked with
    | some t => if 0 < now - t ∧ now - t < 120 then ⌊now - t⌋ else 0
    | none => 0

/-- One call to `enqueue` with its clock readings. -/
structure EnqueueCall where
  timestamp : ℚ
  now : ℚ
  today : ℤ
  filename : String
  is_write : Bool
deriving DecidableEq, Repr

/-- Run one `EnqueueCall`. -/
def enqueueStep (st : QState) (c : EnqueueCall) : QState :=
  enqueue st c.timestamp c.now c.today c.filename c.is_write

/-- The value `get_tracked_time_live` returns right after each call of a
sequence of `enqueue` calls. -/
def liveTrace (st : QState) : List EnqueueCall → List ℤ
  | [] => []
  | c :: rest =>
    let st' := enqueueStep st c
    get_tracked_time_live st' c.now :: liveTrace st' rest

/-! ### `__init__.py`: activity signal evaluator and tracking state machine -/

/-- `_compute_tracking_condition` (__init__.py lines 219-228) as a pure
function of its inputs: the blend filepath, the API key, the focus flag, the
monotonic clock reading, the last-activity monotonic moment, and the idle
timeout. -/
def compute_tracking_condition (filepath api_key : String) (focused : Bool)
    (mono last_activity idle_timeout : ℚ) : Bool × String :=
  if filepath = "" then (false, "unsaved")
  else if api_key = "" then (false, "api-key")
  else if !focused then (false, "unfocused")
  else if mono - last_activity ≥ idle_timeout then (false, "idle")
  else (true, "")

/-- The tracking state the transition owns: the `(active, reason)` pair. -/
structure TrackState where
  active : Bool
  reason : String
deriving DecidableEq, Repr

/-- What one `_set_tracking_state` call did: the new state, the timeline log
lines written, the `is_write` flags of the `_enqueue_current_file` calls made,
and whether the statusbar cache was refreshed. -/
structure TransitionResult where
  state : TrackState
  logs : List String
  enqueues : List Bool
  refreshed : Bool
deriving DecidableEq, Repr

/-- `_set_tracking_state` (__init__.py lines 231-246): a no-op when the
`(active, reason)` pair is unchanged; otherwise adopt the pair, log and
enqueue on a pause-to-active edge, log the pause reason on an
active-to-pause edge or a pause-reason change, and refresh the statusbar. -/
def set_tracking_state (prev : TrackState) (active : Bool) (reason : String) :
    TransitionResult :=
  if active = prev.active ∧ reason = prev.reason then
    ⟨prev, [], [], false⟩
  else
    let logs :=
      if active then
        if !prev.active then ["tracking resumed"] else []
      else
        if prev.active ∨ reason ≠ prev.reason then
          ["tracking paused (" ++ reason ++ ")"]
        else []
    let enq := if active ∧ !prev.active then [false] else []
    ⟨⟨active, reason⟩, logs, enq, true⟩

/-! ### `heartbeat_queue.py`: delivery result handling (lines 195-229)

`_send_to_wakatime` runs the external CLI inside a `try` block whose
`except FileNotFoundError` and `except Exception` arms log and return, so no
outcome of the subprocess raises out of the call.  The embedding makes the
subprocess outcome explicit and interprets it exactly as the code does. -/

/-- How the `Popen`/`communicate` part of `_send_to_wakatime` ended: a result
code (`process.poll()`, an optional integer) with captured output, a
`FileNotFoundError`, or any other exception. -/
inductive ProcResult where
  | completed (retcode : Option ℤ) (output : String)
  | fileNotFound
  | exn (msg : String)
deriving DecidableEq, Repr

/-- The observable effects of one delivery call: whether the stored API key
was cleared (`settings.set("api_key", "")`) and the log lines written. -/
structure DeliveryOutcome where
  clearedApiKey : Bool
  logs : List String
deriving DecidableEq, Repr

/-- Python's rendering of the result code in the status log line. -/
def retcodeStr : Option ℤ → String
  | none => "None"
  | some n => toString n

/-- The result-code interpretation of `_send_to_wakatime`
(heartbeat_queue.py lines 205-225): success on a falsy or 102 code with no
output; code 104 clears the stored API key; 103, 105 and any other code only
log; then the status and output log lines. -/
def interpretDeliveryResult (retcode : Option ℤ) (output : String) :
    DeliveryOutcome :=
  let base : DeliveryOutcome :=
    if (retcode = none ∨ retcode = some 0 ∨ retcode = some 102) ∧ output = "" then
      ⟨false, ["Heartbeat sent successfully"]⟩
    else if retcode = some 104 then
      ⟨true, ["Invalid Wakatime API key. Please check your API key in preferences.",
              "You can get your API key from: https://wakatime.com/api-key"]⟩
    else if retcode = some 103 then
      ⟨false, ["Wakatime configuration error. Please check your API key and server URL."]⟩
    else if retcode = some 105 then
      ⟨false, ["Wakatime API timeout. Please check your internet connection and API server URL."]⟩
    else
      ⟨false, ["Wakatime API error (code: " ++ retcodeStr retcode ++ ")"]⟩
  let base :=
    if (retcode ≠ none ∧ retcode ≠ some 0) ∧ retcode ≠ some 102 then
      { base with logs := base.logs ++
          ["wakatime-core exited with status: " ++ retcodeStr retcode] }
    else base
  if output ≠ "" then
    { base with logs := base.logs ++ ["wakatime-core output: " ++ output] }
  else base

/-- The whole guarded delivery tail of `_send_to_wakatime` (heartbeat_queue.py
lines 195-229): every subprocess outcome, exceptional ones included, yields a
plain `DeliveryOutcome` — the `except` arms make the function total. -/
def send_to_wakatime_result : ProcResult → DeliveryOutcome
  | .completed retcode output => interpretDeliveryResult retcode output
  | .fileNotFound =>
    ⟨false, ["Wakatime CLI not found. Please ensure the wakatime client is properly installed."]⟩
  | .exn msg => ⟨false, ["Failed to send heartbeat to Wakatime: " ++ msg]⟩

/-! ### Field-preservation lemmas for the `enqueue` blocks -/

lemma dailyReset_day (st : QState) (today : ℤ) : (dailyReset st today).day = today := by
  unfold dailyReset
  split_ifs with h
  · rfl
  · rw [not_ne_iff] at h
    exact h.symm

lemma dailyReset_queue (st : QState) (today : ℤ) :
    (dailyReset st today).queue = st.queue := by
  unfold dailyReset; split_ifs <;> rfl

lemma dailyReset_lastHB (st : QState) (today : ℤ) :
    (dailyReset st today).lastHB = st.lastHB := by
  unfold dailyReset; split_ifs <;> rfl

lemma dailyReset_lastTracked (st : QState) (today : ℤ) :
    (dailyReset st today).lastTracked = st.lastTracked := by
  unfold dailyReset; split_ifs <;> rfl

lemma dailyReset_of_eq {st : QState} {today : ℤ} (h : today = st.day) :
    dailyReset st today = st := by
  unfold dailyReset
  rw [if_neg (not_ne_iff.mpr h)]

lemma dailyReset_of_ne {st : QState} {today : ℤ} (h : today ≠ st.day) :
    dailyReset st today =
      { st with total := 0, day := today, saves := st.saves ++ [(today, 0)] } := by
  unfold dailyReset
  rw [if_pos h]

lemma liveUpdate_day (st : QState) (now : ℚ) : (liveUpdate st now).day = st.day := by
  unfold liveUpdate
  split
  · split_ifs <;> rfl
  · rfl

lemma liveUpdate_queue (st : QState) (now : ℚ) :
    (liveUpdate st now).queue = st.queue := by
  unfold liveUpdate
  split
  · split_ifs <;> rfl
  · rfl

lemma liveUpdate_lastHB (st : QState) (now : ℚ) :
    (liveUpdate st now).lastHB = st.lastHB := by
  unfold liveUpdate
  split
  · split_ifs <;> rfl
  · rfl

lemma liveUpdate_lastTracked (st : QState) (now : ℚ) :
    (liveUpdate st now).lastTracked = st.lastTracked := by
  unfold liveUpdate
  split
  · split_ifs <;> rfl
  · rfl

lemma liveUpdate_total_ge (st : QState) (now : ℚ) :
    st.total ≤ (liveUpdate st now).total := by
  unfold liveUpdate
  split
  next t heq =>
    split_ifs with hc
    · exact le_add_of_nonneg_right (Int.floor_nonneg.mpr (le_of_lt hc.1))
    · exact le_refl _
  next heq => exact le_refl _

lemma liveUpdate_saves (st : QState) (now : ℚ) :
    ∃ tail, (liveUpdate st now).saves = st.saves ++ tail := by
  unfold liveUpdate
  split
  next t heq =>
    split_ifs with hc
    · exact ⟨[(st.day, st.total + ⌊now - t⌋)], rfl⟩
    · exact ⟨[], by simp⟩
  next heq => exact ⟨[], by simp⟩

/-! ### Basic shape lemmas for `enqueue` -/

lemma enqueue_day (st : QState) (tsp now : ℚ) (today : ℤ) (f : String) (w : Bool) :
    (enqueue st tsp now today f w).day = today := by
  simp only [enqueue]
  split <;> [skip; split] <;> simp [liveUpdate_day, dailyReset_day]

lemma enqueue_lastTracked (st : QState) (tsp now : ℚ) (today : ℤ) (f : String)
    (w : Bool) : (enqueue st tsp now today f w).lastTracked = some now := by
  simp only [enqueue]
  split <;> [skip; split] <;> rfl

lemma enqueue_total_eq (st : QState) (tsp now : ℚ) (today : ℤ) (f : String)
    (w : Bool) :
    (enqueue st tsp now today f w).total = (liveUpdate (dailyReset st today) now).total := by
  simp only [enqueue]
  split <;> [skip; split] <;> rfl

lemma enqueue_total_ge {st : QState} {today : ℤ} (tsp now : ℚ) (f : String)
    (w : Bool) (h : today = st.day) :
    st.total ≤ (enqueue st tsp now today f w).total := by
  rw [enqueue_total_eq, dailyReset_of_eq h]
  exact liveUpdate_total_ge st now

lemma enqueue_total_of_rollover {st : QState} {today : ℤ} (tsp now : ℚ)
    (f : String) (w : Bool) (h : today ≠ st.day) :
    (enqueue st tsp now today f w).total =
      (match st.lastTracked with
       | some t => if 0 < now - t ∧ now - t < 600 then ⌊now - t⌋ else 0
       | none => 0) := by
  rw [enqueue_total_eq, dailyReset_of_ne h]
  unfold liveUpdate
  rcases hlt : st.lastTracked with _ | t <;> simp only [hlt]
  split_ifs <;> simp

lemma enqueue_live_eq_total (st : QState) (tsp now : ℚ) (today : ℤ) (f : String)
    (w : Bool) :
    get_tracked_time_live (enqueue st tsp now today f w) now =
      (enqueue st tsp now today f w).total := by
  unfold get_tracked_time_live
  rw [enqueue_lastTracked]
  simp

lemma enqueue_saves_suffix (st : QState) (tsp now : ℚ) (today : ℤ) (f : String)
    (w : Bool) :
    ∃ tail, (enqueue st tsp now today f w).saves =
      (dailyReset st today).saves ++ tail := by
  obtain ⟨t1, ht1⟩ := liveUpdate_saves (dailyReset st today) now
  simp only [enqueue]
  split_ifs
  · exact ⟨t1, ht1⟩
  · exact ⟨t1, ht1⟩
  · refine ⟨t1 ++ [((liveUpdate (dailyReset st today) now).day,
      (liveUpdate (dailyReset st today) now).total)], ?_⟩
    rw [← List.append_assoc, ← ht1]

lemma liveUpdate_of_active {st : QState} {now t : ℚ} (hlt : st.lastTracked = some t)
    (h1 : 0 < now - t) (h2 : now - t < 600) :
    liveUpdate st now =
      { st with total := st.total + ⌊now - t⌋,
                saves := st.saves ++ [(st.day, st.total + ⌊now - t⌋)] } := by
  unfold liveUpdate
  split
  next t' heq =>
    rw [hlt] at heq
    injection heq with heq'
    subst heq'
    rw [if_pos ⟨h1, h2⟩]
  next heq =>
    rw [hlt] at heq
    exact absurd heq (by simp)

lemma enqueue_empty (st : QState) (tsp now : ℚ) (today : ℤ) (w : Bool) :
    enqueue st tsp now today "" w =
      { liveUpdate (dailyReset st today) now with lastTracked := some now } := by
  simp only [enqueue]
  rw [if_pos trivial]

/-! ### Monotonicity of the live trace -/

lemma liveTrace_chain (d : ℤ) :
    ∀ (calls : List EnqueueCall), (∀ c ∈ calls, c.today = d) →
      ∀ st : QState, List.Chain' (· ≤ ·) (liveTrace st calls)
  | [], _, st => by simp [liveTrace]
  | [c], _, st => by simp [liveTrace]
  | c :: c' :: rest, h, st => by
    rw [liveTrace, liveTrace, List.chain'_cons]
    constructor
    · rw [show enqueueStep st c = enqueue st c.timestamp c.now c.today c.filename
        c.is_write from rfl, enqueue_live_eq_total]
      rw [show enqueueStep (enqueue st c.timestamp c.now c.today c.filename c.is_write) c'
          = enqueue (enqueue st c.timestamp c.now c.today c.filename c.is_write)
            c'.timestamp c'.now c'.today c'.filename c'.is_write from rfl,
        enqueue_live_eq_total]
      apply enqueue_total_ge
      rw [enqueue_day]
      rw [h c' (by simp), h c (by simp)]
    · exact liveTrace_chain d (c' :: rest)
        (fun x hx => h x (List.mem_cons_of_mem _ hx)) (enqueueStep st c)

/-! ### Suffix lemmas for the URL derivation -/

lemma rstripP_concat (p : Char → Bool) (l : List Char) (a : Char)
    (h : p a = false) : rstripP p (l ++ [a]) = l ++ [a] := by
  simp [rstripP, List.dropWhile_cons, h]

lemma endsWithL_append (v s : List Char) : endsWithL (v ++ s) s = true := by
  unfold endsWithL
  rw [List.length_append, Nat.add_sub_cancel, List.drop_left]
  simp

lemma dropSuffixL_append (v s : List Char) : dropSuffixL (v ++ s) s = v := by
  unfold dropSuffixL
  rw [List.length_append, Nat.add_sub_cancel, List.take_left]

lemma endsWithL_concat_ne (w t : List Char) (a b : Char) (h : a ≠ b) :
    endsWithL (w ++ [a]) (t ++ [b]) = false := by
  unfold endsWithL
  apply decide_eq_false
  intro heq
  have hsplit : ((w ++ [a]).take ((w ++ [a]).length - (t ++ [b]).length)) ++ (t ++ [b])
      = w ++ [a] := by
    conv_rhs => rw [← List.take_append_drop ((w ++ [a]).length - (t ++ [b]).length) (w ++ [a])]
    rw [heq]
  have hlast := congrArg List.getLast? hsplit
  rw [← List.append_assoc, List.getLast?_concat, List.getLast?_concat] at hlast
  exact h (Option.some.injEq _ _ ▸ hlast).symm

/-- Any string that ends in the full derived-endpoint suffix and has no
leading whitespace is a fixed point of the endpoint derivation. -/
lemma heartbeats_url_fixed (v : List Char)
    (hw : (v ++ fullSfx).dropWhile pySpace = v ++ fullSfx) :
    api_heartbeats_url_for_value (v ++ fullSfx) = v ++ fullSfx := by
  have hdecomp : fullSfx = apiV1 ++ sfxUCB := by decide
  have hUCBk : sfxUCB = "/users/current/heartbeats.bul".toList ++ ['k'] := by decide
  have hapi1 : apiV1 = "/api/v".toList ++ ['1'] := by decide
  have hUCt : sfxUC = "/users/curren".toList ++ ['t'] := by decide
  have hne : v ++ fullSfx ≠ [] := by
    intro hc
    exact absurd (List.append_eq_nil.mp hc).2 (by decide)
  have hu_k : v ++ fullSfx =
      (v ++ (apiV1 ++ "/users/current/heartbeats.bul".toList)) ++ ['k'] := by
    rw [hdecomp, hUCBk]
    simp [List.append_assoc]
  have hstrip : pyStrip (v ++ fullSfx) = v ++ fullSfx := by
    unfold pyStrip
    rw [hw, hu_k]
    exact rstripP_concat _ _ _ (by decide)
  have hslash : rstripP (fun c => c == '/') (v ++ fullSfx) = v ++ fullSfx := by
    rw [hu_k]
    exact rstripP_concat _ _ _ (by decide)
  have hsl2 : rstripP (fun c => c == '/') (v ++ apiV1) = v ++ apiV1 := by
    rw [hapi1, ← List.append_assoc]
    exact rstripP_concat _ _ _ (by decide)
  have h1 : strip_heartbeats_suffix (v ++ fullSfx) = v ++ apiV1 := by
    unfold strip_heartbeats_suffix removeFirstSuffix
    rw [if_neg hne, hstrip, hslash]
    have he : endsWithL (v ++ fullSfx) sfxUCB = true := by
      rw [hdecomp, ← List.append_assoc]
      exact endsWithL_append _ _
    rw [if_pos he, hdecomp, ← List.append_assoc, dropSuffixL_append]
  have h2 : normalize_api_v1_base (v ++ fullSfx) = v ++ apiV1 := by
    unfold normalize_api_v1_base normalizeBase
    rw [if_neg hne, h1, hsl2]
    have he2 : (endsWithL (v ++ apiV1) apiV1 ||
        endsWithL (v ++ apiV1) "/v1".toList) = true := by
      rw [endsWithL_append]
      exact Bool.true_or _
    rw [if_pos he2]
  have hf1 : endsWithL (v ++ apiV1) sfxUCB = false := by
    rw [hapi1, ← List.append_assoc, hUCBk]
    exact endsWithL_concat_ne _ _ _ _ (by decide)
  have hf2 : endsWithL (v ++ apiV1) sfxUC = false := by
    rw [hapi1, ← List.append_assoc, hUCt]
    exact endsWithL_concat_ne _ _ _ _ (by decide)
  unfold api_heartbeats_url_for_value appendHeartbeats
  rw [h2, hsl2, if_neg (by simp [hf1]), if_neg (by simp [hf2]),
    hdecomp, List.append_assoc]

/-! ### Claim theorems -/

/-- Claim C1: for an `enqueue` call with a non-empty filename, a heartbeat is
queued for delivery exactly when no heartbeat was queued yet, or the entity
differs from the last queued entity, or strictly more than the threshold
(2 s for writes, 30 s otherwise) elapsed since the last queued heartbeat's
timestamp; otherwise the delivery queue is left unchanged. -/
theorem claim_C1 (st : QState) (tsp now : ℚ) (today : ℤ) (f : String) (w : Bool)
    (hf : f ≠ "") :
    ((st.lastHB = none ∨ ∃ hb, st.lastHB = some hb ∧
        (f ≠ hb.entity ∨ tsp - hb.timestamp > (if w then (2 : ℚ) else 30))) →
      (enqueue st tsp now today f w).queue =
        st.queue ++ [⟨f, simple_project_name f, tsp, w⟩]) ∧
    ((∃ hb, st.lastHB = some hb ∧ f = hb.entity ∧
        tsp - hb.timestamp ≤ (if w then (2 : ℚ) else 30)) →
      (enqueue st tsp now today f w).queue = st.queue) := by
  constructor
  · rintro hcond
    simp only [enqueue]
    split_ifs with h0 h1
    · exact absurd h0 hf
    · exfalso
      rcases hcond with hnone | ⟨hb, hhb, hor⟩
      · rw [hnone] at h1
        exact hf h1.1
      · rw [hhb] at h1
        rcases hor with hne | hgt
        · exact hne h1.1
        · apply h1.2
          unfold enough_time_passed
          rw [hhb]
          exact decide_eq_true hgt
    · simp [liveUpdate_queue, dailyReset_queue]
  · rintro ⟨hb, hhb, hent, hle⟩
    simp only [enqueue]
    split_ifs with h0 h1
    · exact absurd h0 hf
    · simp [liveUpdate_queue, dailyReset_queue]
    · exfalso
      apply h1
      rw [hhb]
      refine ⟨hent, ?_⟩
      unfold enough_time_passed
      rw [hhb]
      simp [not_lt.mpr hle]

/-- A queue state whose last queued heartbeat is for `a.blend` at time 0. -/
def c1state : QState :=
  ⟨0, none, 1, some ⟨"a.blend", "a [blender]", 0, false⟩, [], []⟩

/-- Witness for C1: a repeat non-write `enqueue` for the same entity 31 s
after the last queued heartbeat. -/
theorem claim_C1_witness :
    ("a.blend" : String) ≠ "" ∧
    (((c1state.lastHB = none ∨ ∃ hb, c1state.lastHB = some hb ∧
        ("a.blend" ≠ hb.entity ∨
          (31 : ℚ) - hb.timestamp > (if false then (2 : ℚ) else 30))) →
      (enqueue c1state 31 31 1 "a.blend" false).queue =
        c1state.queue ++ [⟨"a.blend", simple_project_name "a.blend", 31, false⟩]) ∧
     ((∃ hb, c1state.lastHB = some hb ∧ "a.blend" = hb.entity ∧
        (31 : ℚ) - hb.timestamp ≤ (if false then (2 : ℚ) else 30)) →
      (enqueue c1state 31 31 1 "a.blend" false).queue = c1state.queue)) :=
  ⟨by decide, claim_C1 c1state 31 31 1 "a.blend" false (by decide)⟩

/-- Claim C2: over a sequence of `enqueue` calls that all fall on the same
calendar day with gaps under 600 s, the values `get_tracked_time_live`
returns right after each call are monotonically non-decreasing; and a call
crossing a day boundary rebuilds the accumulated total from zero (plus at
most that call's own delta), discarding the previous day's total. -/
theorem claim_C2 (st : QState) (d : ℤ) (calls : List EnqueueCall)
    (hday : ∀ c ∈ calls, c.today = d)
    (_hgap : List.Chain' (fun a b => a.now ≤ b.now ∧ b.now - a.now < 600) calls) :
    List.Chain' (· ≤ ·) (liveTrace st calls) ∧
    (∀ (st' : QState) (tsp now : ℚ) (today : ℤ) (f : String) (w : Bool),
      today ≠ st'.day →
      (enqueue st' tsp now today f w).total =
        (match st'.lastTracked with
         | some t => if 0 < now - t ∧ now - t < 600 then ⌊now - t⌋ else 0
         | none => 0)) :=
  ⟨liveTrace_chain d calls hday st, fun _ tsp now _ f w h =>
    enqueue_total_of_rollover tsp now f w h⟩

/-- Two same-day calls 10 s apart. -/
def c2call1 : EnqueueCall := ⟨0, 0, 1, "a.blend", false⟩

/-- The second same-day call. -/
def c2call2 : EnqueueCall := ⟨10, 10, 1, "a.blend", false⟩

/-- The initial queue state for the C2 witness. -/
def c2state : QState := ⟨0, none, 1, none, [], []⟩

/-- Witness for C2 on a concrete two-call sequence. -/
theorem claim_C2_witness :
    (∀ c ∈ [c2call1, c2call2], c.today = 1) ∧
    List.Chain' (fun a b => a.now ≤ b.now ∧ b.now - a.now < 600)
      [c2call1, c2call2] ∧
    (List.Chain' (· ≤ ·) (liveTrace c2state [c2call1, c2call2]) ∧
     (∀ (st' : QState) (tsp now : ℚ) (today : ℤ) (f : String) (w : Bool),
       today ≠ st'.day →
       (enqueue st' tsp now today f w).total =
         (match st'.lastTracked with
          | some t => if 0 < now - t ∧ now - t < 600 then ⌊now - t⌋ else 0
          | none => 0))) :=
  ⟨by decide, by norm_num [c2call1, c2call2, List.chain'_cons],
    claim_C2 c2state 1 [c2call1, c2call2] (by decide)
      (by norm_num [c2call1, c2call2, List.chain'_cons])⟩

/-- Claim C3: an `enqueue` call on a calendar date different from the stored
day adopts the new date, persists a zero record before any further save of
that call (the trace gains `(today, 0)` first), and computes the new total
from zero plus at most that call's delta — the previous total is discarded
before the delta is applied. -/
theorem claim_C3 (st : QState) (tsp now : ℚ) (today : ℤ) (f : String) (w : Bool)
    (h : today ≠ st.day) :
    (enqueue st tsp now today f w).day = today ∧
    (enqueue st tsp now today f w).total =
      (match st.lastTracked with
       | some t => if 0 < now - t ∧ now - t < 600 then ⌊now - t⌋ else 0
       | none => 0) ∧
    ∃ tail, (enqueue st tsp now today f w).saves =
      st.saves ++ (today, 0) :: tail := by
  refine ⟨enqueue_day st tsp now today f w,
    enqueue_total_of_rollover tsp now f w h, ?_⟩
  obtain ⟨tail, htail⟩ := enqueue_saves_suffix st tsp now today f w
  rw [htail, dailyReset_of_ne h]
  exact ⟨tail, by simp⟩

/-- A queue state on day 0 with a previous total, for the C3 witness. -/
def c3state : QState := ⟨5, none, 0, none, [], [(0, 5)]⟩

/-- Witness for C3: an `enqueue` on day 1 against stored day 0. -/
theorem claim_C3_witness :
    (1 : ℤ) ≠ c3state.day ∧
    ((enqueue c3state 7 7 1 "a.blend" false).day = 1 ∧
     (enqueue c3state 7 7 1 "a.blend" false).total =
       (match c3state.lastTracked with
        | some t => if 0 < (7 : ℚ) - t ∧ (7 : ℚ) - t < 600 then ⌊(7 : ℚ) - t⌋ else 0
        | none => 0) ∧
     ∃ tail, (enqueue c3state 7 7 1 "a.blend" false).saves =
       c3state.saves ++ (1, 0) :: tail) :=
  ⟨by decide, claim_C3 c3state 7 7 1 "a.blend" false (by decide)⟩

/-- Claim C7: the endpoint derivation maps the raw base URL
`https://api.wakatime.com/` to
`https://api.wakatime.com/api/v1/users/current/heartbeats.bulk`, and it is
idempotent on derived endpoints: any URL ending in
`/api/v1/users/current/heartbeats.bulk` is returned unchanged (stated for
inputs without leading whitespace — a URL cannot contain whitespace). -/
theorem claim_C7 (u : List Char)
    (hs : endsWithL u fullSfx = true)
    (hw : u.dropWhile pySpace = u) :
    api_heartbeats_url_for_value DEFAULT_API_SERVER_URL =
      "https://api.wakatime.com/api/v1/users/current/heartbeats.bulk".toList ∧
    api_heartbeats_url_for_value u = u := by
  refine ⟨by decide, ?_⟩
  have hdrop : u.drop (u.length - fullSfx.length) = fullSfx := of_decide_eq_true hs
  have hu : u = u.take (u.length - fullSfx.length) ++ fullSfx := by
    conv_lhs => rw [← List.take_append_drop (u.length - fullSfx.length) u]
    rw [hdrop]
  rw [hu] at hw ⊢
  exact heartbeats_url_fixed _ hw

/-- Witness for C7 at the already-derived endpoint itself. -/
theorem claim_C7_witness :
    endsWithL fullSfx fullSfx = true ∧
    fullSfx.dropWhile pySpace = fullSfx ∧
    (api_heartbeats_url_for_value DEFAULT_API_SERVER_URL =
       "https://api.wakatime.com/api/v1/users/current/heartbeats.bulk".toList ∧
     api_heartbeats_url_for_value fullSfx = fullSfx) :=
  ⟨by decide, by decide, claim_C7 fullSfx (by decide) (by decide)⟩

/-- Claim C10: an `enqueue` call with an empty filename never queues a
heartbeat and leaves the last-queued-heartbeat record unchanged (first
conjunct, for every state and clock), while the tracked-time accounting still
runs: under a qualifying gap on the same day the delta is added to the total,
the new total is persisted, and the last-tracked-time marker is updated. -/
theorem claim_C10 (st : QState) (tsp now t : ℚ) (today : ℤ) (w : Bool)
    (hlt : st.lastTracked = some t) (h1 : 0 < now - t) (h2 : now - t < 600)
    (hday : today = st.day) :
    (∀ (st' : QState) (tsp' now' : ℚ) (today' : ℤ) (w' : Bool),
      (enqueue st' tsp' now' today' "" w').queue = st'.queue ∧
      (enqueue st' tsp' now' today' "" w').lastHB = st'.lastHB) ∧
    (enqueue st tsp now today "" w).total = st.total + ⌊now - t⌋ ∧
    (enqueue st tsp now today "" w).saves =
      st.saves ++ [(st.day, st.total + ⌊now - t⌋)] ∧
    (enqueue st tsp now today "" w).lastTracked = some now := by
  have hkey : enqueue st tsp now today "" w =
      { liveUpdate st now with lastTracked := some now } := by
    rw [enqueue_empty, dailyReset_of_eq hday]
  refine ⟨?_, ?_, ?_, ?_⟩
  · intro st' tsp' now' today' w'
    rw [enqueue_empty]
    constructor
    · show (liveUpdate (dailyReset st' today') now').queue = st'.queue
      rw [liveUpdate_queue, dailyReset_queue]
    · show (liveUpdate (dailyReset st' today') now').lastHB = st'.lastHB
      rw [liveUpdate_lastHB, dailyReset_lastHB]
  · rw [hkey]
    show (liveUpdate st now).total = _
    rw [liveUpdate_of_active hlt h1 h2]
  · rw [hkey]
    show (liveUpdate st now).saves = _
    rw [liveUpdate_of_active hlt h1 h2]
  · rw [hkey]

/-- A queue state with an active session 50 s old, for the C10 witness. -/
def c10state : QState := ⟨7, some 0, 1, none, [], []⟩

/-- Witness for C10: an empty-filename `enqueue` 50 s after the last activity. -/
theorem claim_C10_witness :
    c10state.lastTracked = some 0 ∧ (0 : ℚ) < 50 - 0 ∧ (50 : ℚ) - 0 < 600 ∧
    (1 : ℤ) = c10state.day ∧
    ((∀ (st' : QState) (tsp' now' : ℚ) (today' : ℤ) (w' : Bool),
      (enqueue st' tsp' now' today' "" w').queue = st'.queue ∧
      (enqueue st' tsp' now' today' "" w').lastHB = st'.lastHB) ∧
     (enqueue c10state 50 50 1 "" false).total = c10state.total + ⌊(50 : ℚ) - 0⌋ ∧
     (enqueue c10state 50 50 1 "" false).saves =
       c10state.saves ++ [(c10state.day, c10state.total + ⌊(50 : ℚ) - 0⌋)] ∧
     (enqueue c10state 50 50 1 "" false).lastTracked = some 50) :=
  ⟨rfl, by norm_num, by norm_num, rfl,
    claim_C10 c10state 50 50 0 1 false rfl (by norm_num) (by norm_num) rfl⟩

/-- Claim C4: for every day `d` and non-negative integer `N`, `save d N` then
`load d` returns `(N, true)`; `load d2` for any `d2 ≠ d` returns `(0, false)`;
and `load` of a missing record returns `(0, false)`. -/
theorem claim_C4 (d d2 N : ℤ) (hN : 0 ≤ N) (hne : d2 ≠ d) :
    load_tracked_seconds d (save_tracked_seconds d N) = (N, true) ∧
    load_tracked_seconds d2 (save_tracked_seconds d N) = (0, false) ∧
    load_tracked_seconds d none = (0, false) := by
  refine ⟨?_, ?_, rfl⟩
  · simp [load_tracked_seconds, save_tracked_seconds, max_eq_right hN]
  · simp [load_tracked_seconds, save_tracked_seconds, Ne.symm hne]

/-- Witness for C4 at `d = 1`, `d2 = 2`, `N = 5`. -/
theorem claim_C4_witness :
    (0 : ℤ) ≤ 5 ∧ (2 : ℤ) ≠ 1 ∧
    (load_tracked_seconds 1 (save_tracked_seconds 1 5) = (5, true) ∧
     load_tracked_seconds 2 (save_tracked_seconds 1 5) = (0, false) ∧
     load_tracked_seconds 1 none = (0, false)) :=
  ⟨by decide, by decide, claim_C4 1 2 5 (by decide) (by decide)⟩

/-- Claim C5: the activity signal evaluator checks saved-document, api-key,
focus and idle in that fixed priority order, the first failing condition
determining the reason; in particular an unsaved document with an empty API
key reports `"unsaved"`, not `"api-key"` (the first conjunct at `k = ""`). -/
theorem claim_C5 (fp k : String) (foc : Bool) (mono la tmo : ℚ) :
    (fp = "" → compute_tracking_condition fp k foc mono la tmo = (false, "unsaved")) ∧
    (fp ≠ "" → k = "" →
      compute_tracking_condition fp k foc mono la tmo = (false, "api-key")) ∧
    (fp ≠ "" → k ≠ "" → foc = false →
      compute_tracking_condition fp k foc mono la tmo = (false, "unfocused")) ∧
    (fp ≠ "" → k ≠ "" → foc = true → mono - la ≥ tmo →
      compute_tracking_condition fp k foc mono la tmo = (false, "idle")) ∧
    (fp ≠ "" → k ≠ "" → foc = true → mono - la < tmo →
      compute_tracking_condition fp k foc mono la tmo = (true, "")) := by
  refine ⟨?_, ?_, ?_, ?_, ?_⟩
  · intro h
    simp [compute_tracking_condition, h]
  · intro h1 h2
    simp [compute_tracking_condition, h1, h2]
  · intro h1 h2 h3
    simp [compute_tracking_condition, h1, h2, h3]
  · intro h1 h2 h3 h4
    simp [compute_tracking_condition, h1, h2, h3, h4]
  · intro h1 h2 h3 h4
    simp [compute_tracking_condition, h1, h2, h3, not_le.mpr h4]

/-- Counterexample for C6: with a saved document, a key, focus, and elapsed
time exactly equal to the idle timeout (30 s), the evaluator reports
`(false, "idle")` — not `(true, "")` as the claim requires at the boundary
(the code compares with `>=`, not `>`). -/
theorem claim_C6_counterexample :
    compute_tracking_condition "a.blend" "key" true 30 0 30 = (false, "idle") ∧
    compute_tracking_condition "a.blend" "key" true 30 0 30 ≠ (true, "") := by
  have h : compute_tracking_condition "a.blend" "key" true 30 0 30 = (false, "idle") := by
    unfold compute_tracking_condition
    rw [if_neg (by decide : ¬("a.blend" : String) = "")]
    rw [if_neg (by decide : ¬("key" : String) = "")]
    norm_num
  refine ⟨h, ?_⟩
  rw [h]
  decide

/-- Claim C6 as amended: with a saved document, a non-empty key and focus,
the evaluator returns `(false, "idle")` exactly when at least
`idle_timeout` has elapsed (so also at the exact boundary), and `(true, "")`
exactly when strictly less has elapsed. -/
theorem claim_C6_amended (fp k : String) (foc : Bool) (mono la tmo : ℚ)
    (h1 : fp ≠ "") (h2 : k ≠ "") (h3 : foc = true) :
    (compute_tracking_condition fp k foc mono la tmo = (false, "idle") ↔
      mono - la ≥ tmo) ∧
    (compute_tracking_condition fp k foc mono la tmo = (true, "") ↔
      mono - la < tmo) := by
  subst h3
  unfold compute_tracking_condition
  rw [if_neg h1, if_neg h2]
  by_cases h : tmo ≤ mono - la
  · simp [h, not_lt.mpr h]
  · simp [h, not_le.mp h]

/-- Witness for the amended C6 at elapsed 31 s against a 30 s timeout. -/
theorem claim_C6_witness :
    ("a.blend" : String) ≠ "" ∧ ("key" : String) ≠ "" ∧ true = true ∧
    ((compute_tracking_condition "a.blend" "key" true 31 0 30 = (false, "idle") ↔
        (31 : ℚ) - 0 ≥ 30) ∧
     (compute_tracking_condition "a.blend" "key" true 31 0 30 = (true, "") ↔
        (31 : ℚ) - 0 < 30)) :=
  ⟨by decide, by decide, rfl,
    claim_C6_amended "a.blend" "key" true 31 0 30 (by decide) (by decide) rfl⟩

/-- The key-clearing branch of the result interpretation fires exactly on
result code 104. -/
lemma ite_logs_cleared (c : Prop) [Decidable c] (b : DeliveryOutcome)
    (L : List String) :
    (if c then { b with logs := L } else b).clearedApiKey = b.clearedApiKey := by
  split_ifs <;> rfl

lemma interpret_cleared (rc : Option ℤ) (out : String) :
    (interpretDeliveryResult rc out).clearedApiKey = true ↔ rc = some 104 := by
  simp only [interpretDeliveryResult]
  rw [ite_logs_cleared, ite_logs_cleared]
  split_ifs with h1 h2 h3 h4
  · have hne : rc ≠ some 104 := by rcases h1.1 with rfl | rfl | rfl <;> simp
    simp [hne]
  · simp [h2]
  · simp [h2]
  · simp [h2]
  · simp [h2]

/-- Claim C8: a delivery clears the stored API key exactly when the process
completed with result code 104 (invalid credentials); no other completion
code, nor a `FileNotFoundError`, nor any other exception clears it, and every
such outcome yields a plain `DeliveryOutcome` (the function is total: no
outcome raises out of the delivery call). -/
theorem claim_C8 (r : ProcResult) :
    (send_to_wakatime_result r).clearedApiKey = true ↔
      ∃ output, r = ProcResult.completed (some 104) output := by
  cases r with
  | completed rc out =>
    simp only [send_to_wakatime_result]
    rw [interpret_cleared]
    simp [ProcResult.completed.injEq]
  | fileNotFound => simp [send_to_wakatime_result]
  | exn m => simp [send_to_wakatime_result]

/-- Claim C9: re-applying the current `(active, reason)` pair to the tracking
state transition is a no-op with no side effects (no timeline log, no
enqueue, no statusbar refresh), while a `Paused(r1) → Paused(r2)` change with
`r1 ≠ r2` logs the new pause reason. -/
theorem claim_C9 (prev : TrackState) (active : Bool) (reason : String) :
    (active = prev.active ∧ reason = prev.reason →
      set_tracking_state prev active reason =
        { state := prev, logs := [], enqueues := [], refreshed := false }) ∧
    (prev.active = false → active = false → reason ≠ prev.reason →
      set_tracking_state prev active reason =
        { state := { active := false, reason := reason },
          logs := ["tracking paused (" ++ reason ++ ")"],
          enqueues := [], refreshed := true }) := by
  constructor
  · intro h
    simp [set_tracking_state, h.1, h.2]
  · intro h1 h2 h3
    simp [set_tracking_state, h1, h2, h3]

end WakatimeBlender
